import Mathlib

/-
Verification of the user-management CRUD backend (Express + Firebase Realtime
Database).  The embedding models the request handlers of the main server file:
`getLocationData`, the POST /users handler, the PUT /users/:id handler and the
DELETE /users/:id handler.  External collaborators (the geocoding-by-zip
endpoint, the coordinates-to-weather endpoint, the key-value store) are
modelled abstractly: the two HTTP calls as functions in an environment record,
the store as an association list keyed by record identifier.

JavaScript-specific behaviour is embedded faithfully:
  - a JSON body field is `Option String` (`none` = property absent);
  - JS truthiness of a string field (`!name`, `if (zipCode && ...)`) is
    `truthy`: false for an absent field and for the empty string;
  - `name || currentUser.name` is `jsOr`;
  - the destructuring default `country = "US"` applies only when the property
    is absent (`Option.getD`);
  - Firebase `ref.update(obj)` merges exactly the keys present in `obj` into
    the stored node (`applyUpdates`), while `ref.set(obj)` replaces the node.

Numeric latitude / longitude values and the timezone offset are carried
through the handlers without any arithmetic, so they are modelled as `Int`;
timestamps (`new Date().toISOString()`) are modelled as an abstract instant
`Nat` supplied per request.  Resolver invocations are instrumented: each
handler also returns the list of (zipCode, country) pairs it passed to
`getLocationData`.
-/

namespace UserMgmt

/-- Payload of the geocoding endpoint response used by the code
(`geoResponse.data`): name, lat, lon, country. -/
structure GeoResponse where
  locName : String
  lat : Int
  lon : Int
  country : String
  deriving DecidableEq, Repr

/-- Payload of the weather endpoint response used by the code
(`timezoneResponse.data.timezone`). -/
structure WeatherResponse where
  timezone : Int
  deriving DecidableEq, Repr

/-- The two external HTTP calls made by `getLocationData`, abstracted as
deterministic functions.  An `Except.error` value is a failed axios call
carrying the upstream error message. -/
structure Env where
  geoCall : String → String → Except String GeoResponse
  weatherCall : Int → Int → Except String WeatherResponse

/-- Result of `getLocationData`: the object literal the helper returns. -/
structure Location where
  locName : String
  lat : Int
  lon : Int
  country : String
  timezone : Int
  deriving DecidableEq, Repr

/-- Embedding of `getLocationData(zipCode, country)`: the geocoding call, then
the weather call at the returned coordinates.  Any failure in either call is
caught and re-thrown as `new Error("Failed to fetch location data")`; the
upstream message is only logged, not propagated. -/
def getLocationData (env : Env) (zipCode : String) (country : String) :
    Except String Location :=
  match env.geoCall zipCode country with
  | .error _ => .error "Failed to fetch location data"
  | .ok geo =>
    match env.weatherCall geo.lat geo.lon with
    | .error _ => .error "Failed to fetch location data"
    | .ok w =>
      .ok { locName := geo.locName
            lat := geo.lat
            lon := geo.lon
            country := geo.country
            timezone := w.timezone }

/-- A persisted user record (the `userData` object shape). -/
structure UserRecord where
  id : String
  name : String
  zipCode : String
  country : String
  lat : Int
  lon : Int
  timezone : Int
  createdAt : Nat
  updatedAt : Nat
  deriving DecidableEq, Repr

/-- The users node of the database: identifier-keyed association list. -/
abbrev Store := List (String × UserRecord)

/-- `usersRef.child(id).once("value")`: lookup by identifier. -/
def storeGet : Store → String → Option UserRecord
  | [], _ => none
  | (k, v) :: rest, id => if k = id then some v else storeGet rest id

/-- Write the record stored at `id` (insert if absent, replace if present). -/
def storeSet : Store → String → UserRecord → Store
  | [], id, u => [(id, u)]
  | (k, v) :: rest, id, u =>
    if k = id then (id, u) :: rest else (k, v) :: storeSet rest id u

/-- `usersRef.child(id).remove()`: drop the entries stored under `id`. -/
def storeRemove : Store → String → Store
  | [], _ => []
  | (k, v) :: rest, id =>
    if k = id then storeRemove rest id else (k, v) :: storeRemove rest id

/-- A JSON request body as destructured by the handlers:
`const { name, zipCode, country = "US" } = req.body`.  `none` = property
absent. -/
structure ReqBody where
  name : Option String
  zipCode : Option String
  country : Option String
  deriving DecidableEq, Repr

/-- JS truthiness of an optional string field: `undefined` and `""` are
falsy. -/
def truthy : Option String → Bool
  | none => false
  | some s => s != ""

/-- JS `x || d` for an optional string `x`: falls back to `d` when `x` is
absent or empty. -/
def jsOr : Option String → String → String
  | none, d => d
  | some s, d => if s = "" then d else s

/-- Outcome of the POST /users handler. -/
inductive CreateResult where
  | badRequest (msg : String)
  | created (user : UserRecord)
  | serverError (msg : String)
  deriving DecidableEq, Repr

/-- Embedding of the POST /users handler.  `freshId` is the key produced by
`usersRef.push()` and `now` the current instant.  Returns the HTTP outcome,
the resulting store, and the list of (zipCode, country) pairs passed to
`getLocationData`. -/
def postUsers (env : Env) (freshId : String) (now : Nat) (st : Store)
    (req : ReqBody) : CreateResult × Store × List (String × String) :=
  if !(truthy req.name) || !(truthy req.zipCode) then
    (.badRequest "Name and zipCode are required", st, [])
  else
    let name := req.name.getD ""
    let zipCode := req.zipCode.getD ""
    let country := req.country.getD "US"
    match getLocationData env zipCode country with
    | .error e => (.serverError e, st, [(zipCode, country)])
    | .ok location =>
      let userData : UserRecord :=
        { id := freshId
          name := name
          zipCode := zipCode
          country := location.country
          lat := location.lat
          lon := location.lon
          timezone := location.timezone
          createdAt := now
          updatedAt := now }
      (.created userData, storeSet st freshId userData, [(zipCode, country)])

/-- The `updates` object built by the PUT handler: `name` and `updatedAt` are
always present; the five geolocation keys are present only when the zip-change
branch ran (and then all five at once). -/
structure UpdatesObj where
  name : String
  updatedAt : Nat
  zipCode : Option String
  lat : Option Int
  lon : Option Int
  timezone : Option Int
  country : Option String
  deriving DecidableEq, Repr

/-- Firebase `userRef.update(updates)`: merge exactly the keys present in
`updates` into the stored record; `id` and `createdAt` are never among them. -/
def applyUpdates (u : UserRecord) (up : UpdatesObj) : UserRecord :=
  { id := u.id
    name := up.name
    zipCode := up.zipCode.getD u.zipCode
    country := up.country.getD u.country
    lat := up.lat.getD u.lat
    lon := up.lon.getD u.lon
    timezone := up.timezone.getD u.timezone
    createdAt := u.createdAt
    updatedAt := up.updatedAt }

/-- The `updates` object as first built by the PUT handler:
`{ name: name || currentUser.name, updatedAt: <now> }` — no geolocation keys
present. -/
def baseUpdates (req : ReqBody) (currentUser : UserRecord) (now : Nat) :
    UpdatesObj :=
  { name := jsOr req.name currentUser.name
    updatedAt := now
    zipCode := none
    lat := none
    lon := none
    timezone := none
    country := none }

/-- The `updates` object after the zip-change branch ran `Object.assign`,
adding all five geolocation keys at once. -/
def geoUpdates (req : ReqBody) (currentUser : UserRecord) (now : Nat)
    (z : String) (location : Location) : UpdatesObj :=
  { baseUpdates req currentUser now with
    zipCode := some z
    lat := some location.lat
    lon := some location.lon
    timezone := some location.timezone
    country := some location.country }

/-- Outcome of the PUT /users/:id handler.  Success responds with the
`updates` object that was merged. -/
inductive UpdateResult where
  | notFound
  | okUpdated (updates : UpdatesObj)
  | serverError (msg : String)
  deriving DecidableEq, Repr

/-- Embedding of the PUT /users/:id handler.  `writeErr = some m` models the
single `userRef.update` call rejecting with message `m` (the multi-key update
of one node is atomic, so a failed write leaves the node untouched);
`writeErr = none` models a successful write. -/
def putUsers (env : Env) (now : Nat) (writeErr : Option String) (st : Store)
    (id : String) (req : ReqBody) :
    UpdateResult × Store × List (String × String) :=
  match storeGet st id with
  | none => (.notFound, st, [])
  | some currentUser =>
    let country := req.country.getD "US"
    if truthy req.zipCode && (req.zipCode.getD "" != currentUser.zipCode) then
      let z := req.zipCode.getD ""
      match getLocationData env z country with
      | .error e => (.serverError e, st, [(z, country)])
      | .ok location =>
        let updates := geoUpdates req currentUser now z location
        match writeErr with
        | some m => (.serverError m, st, [(z, country)])
        | none =>
          (.okUpdated updates,
           storeSet st id (applyUpdates currentUser updates), [(z, country)])
    else
      let updates := baseUpdates req currentUser now
      match writeErr with
      | some m => (.serverError m, st, [])
      | none =>
        (.okUpdated updates,
         storeSet st id (applyUpdates currentUser updates), [])

/-- Outcome of the DELETE /users/:id handler. -/
inductive DeleteResult where
  | notFound
  | deleted
  deriving DecidableEq, Repr

/-- Embedding of the DELETE /users/:id handler. -/
def deleteUsers (st : Store) (id : String) : DeleteResult × Store :=
  match storeGet st id with
  | none => (.notFound, st)
  | some _ => (.deleted, storeRemove st id)

/-- Store states reachable from the empty database by any sequence of create,
update and delete operations against a fixed environment. -/
inductive Reachable (env : Env) : Store → Prop where
  | init : Reachable env []
  | create (st : Store) (freshId : String) (now : Nat) (req : ReqBody) :
      Reachable env st → Reachable env (postUsers env freshId now st req).2.1
  | update (st : Store) (now : Nat) (writeErr : Option String) (id : String)
      (req : ReqBody) :
      Reachable env st → Reachable env (putUsers env now writeErr st id req).2.1
  | del (st : Store) (id : String) :
      Reachable env st → Reachable env (deleteUsers st id).2

/-- The record's latitude, longitude and timezone are exactly what resolving
its current (zipCode, country) pair yields.  The resolver is a deterministic
function of the pair, so "the most recent resolution of that pair" is its
value at the pair. -/
def GeoConsistent (env : Env) (u : UserRecord) : Prop :=
  ∃ loc, getLocationData env u.zipCode u.country = .ok loc ∧
    u.lat = loc.lat ∧ u.lon = loc.lon ∧ u.timezone = loc.timezone

/-- The geocoding endpoint echoes the queried country code in its response
(the behaviour of the real endpoint, which resolves `zip,country` within the
given country). -/
def EchoCountry (env : Env) : Prop :=
  ∀ z c g, env.geoCall z c = .ok g → g.country = c

/-! ### Concrete fixtures used by witnesses and counterexamples -/

/-- A total, country-echoing environment: every zip resolves, with fixed
coordinates and timezone offset. -/
def envEcho : Env :=
  { geoCall := fun z c =>
      .ok { locName := z
            lat := 37
            lon := -122
            country := c }
    weatherCall := fun _ _ => .ok { timezone := -25200 } }

/-- An environment whose geocoding call always fails with upstream message
"boom". -/
def envBoom : Env :=
  { geoCall := fun _ _ => .error "boom"
    weatherCall := fun _ _ => .ok { timezone := 0 } }

/-- The record POST /users produces against `envEcho` for
name "Ana", zip "94105", fresh key "u1", at instant 0. -/
def userAna : UserRecord :=
  { id := "u1"
    name := "Ana"
    zipCode := "94105"
    country := "US"
    lat := 37
    lon := -122
    timezone := -25200
    createdAt := 0
    updatedAt := 0 }

/-- A one-record store holding `userAna`. -/
def store1 : Store := [("u1", userAna)]

/-- The create request for `userAna`. -/
def req0 : ReqBody :=
  { name := some "Ana"
    zipCode := some "94105"
    country := none }

/-! ### Store lemmas -/

theorem storeGet_storeSet_self (st : Store) (id : String) (u : UserRecord) :
    storeGet (storeSet st id u) id = some u := by
  induction st with
  | nil => simp [storeSet, storeGet]
  | cons p rest ih =>
    obtain ⟨k, v⟩ := p
    by_cases h : k = id
    · simp [storeSet, storeGet, h]
    · simp [storeSet, storeGet, h, ih]

theorem storeGet_storeSet_of_ne (st : Store) (id j : String) (u : UserRecord)
    (h : id ≠ j) : storeGet (storeSet st id u) j = storeGet st j := by
  induction st with
  | nil => simp [storeSet, storeGet, h]
  | cons p rest ih =>
    obtain ⟨k, v⟩ := p
    by_cases hk : k = id
    · subst hk
      simp [storeSet, storeGet, h]
    · simp [storeSet, storeGet, hk, ih]

theorem storeGet_storeSet_cases (st : Store) (id j : String) (u v : UserRecord)
    (h : storeGet (storeSet st id u) j = some v) :
    v = u ∨ storeGet st j = some v := by
  by_cases hij : id = j
  · subst hij
    rw [storeGet_storeSet_self] at h
    exact Or.inl (Option.some_injective _ h).symm
  · rw [storeGet_storeSet_of_ne st id j u hij] at h
    exact Or.inr h

theorem storeGet_storeRemove_self (st : Store) (id : String) :
    storeGet (storeRemove st id) id = none := by
  induction st with
  | nil => simp [storeRemove, storeGet]
  | cons p rest ih =>
    obtain ⟨k, v⟩ := p
    by_cases hk : k = id
    · simp [storeRemove, hk, ih]
    · simp [storeRemove, storeGet, hk, ih]

theorem storeGet_storeRemove_of_ne (st : Store) (id j : String)
    (h : id ≠ j) : storeGet (storeRemove st id) j = storeGet st j := by
  induction st with
  | nil => simp [storeRemove]
  | cons p rest ih =>
    obtain ⟨k, v⟩ := p
    by_cases hk : k = id
    · subst hk
      simp [storeRemove, storeGet, h, ih]
    · simp [storeRemove, storeGet, hk, ih]

theorem storeGet_storeRemove_cases (st : Store) (id j : String)
    (v : UserRecord) (h : storeGet (storeRemove st id) j = some v) :
    storeGet st j = some v := by
  by_cases hij : id = j
  · subst hij
    rw [storeGet_storeRemove_self] at h
    exact absurd h (by simp)
  · rwa [storeGet_storeRemove_of_ne st id j hij] at h

/-! ### Handler branch lemmas -/

theorem postUsers_invalid (env : Env) (freshId : String) (now : Nat)
    (st : Store) (req : ReqBody)
    (h : truthy req.name = false ∨ truthy req.zipCode = false) :
    postUsers env freshId now st req =
      (.badRequest "Name and zipCode are required", st, []) := by
  have hc : (!(truthy req.name) || !(truthy req.zipCode)) = true := by
    rcases h with h | h <;> simp [h]
  simp [postUsers, hc]

/-- The `userData` object built by the create handler. -/
def createdRecord (freshId n z : String) (now : Nat) (location : Location) :
    UserRecord :=
  { id := freshId
    name := n
    zipCode := z
    country := location.country
    lat := location.lat
    lon := location.lon
    timezone := location.timezone
    createdAt := now
    updatedAt := now }

theorem postUsers_valid (env : Env) (freshId : String) (now : Nat)
    (st : Store) (req : ReqBody) (n z : String)
    (hn : req.name = some n) (hne : n ≠ "")
    (hz : req.zipCode = some z) (hzne : z ≠ "") :
    postUsers env freshId now st req =
      match getLocationData env z (req.country.getD "US") with
      | .error e => (.serverError e, st, [(z, req.country.getD "US")])
      | .ok location =>
        (.created (createdRecord freshId n z now location),
         storeSet st freshId (createdRecord freshId n z now location),
         [(z, req.country.getD "US")]) := by
  have hc : (!(truthy req.name) || !(truthy req.zipCode)) = false := by
    simp [truthy, hn, hz, hne, hzne]
  cases hloc : getLocationData env z (req.country.getD "US") with
  | error e => simp [postUsers, hc, hn, hz, hloc, truthy, hne, hzne]
  | ok location =>
    simp [postUsers, hc, hn, hz, hloc, truthy, hne, hzne, createdRecord]

theorem putUsers_notFound (env : Env) (now : Nat) (we : Option String)
    (st : Store) (id : String) (req : ReqBody)
    (hget : storeGet st id = none) :
    putUsers env now we st id req = (.notFound, st, []) := by
  simp [putUsers, hget]

theorem putUsers_same_zip (env : Env) (now : Nat) (we : Option String)
    (st : Store) (id : String) (req : ReqBody) (u : UserRecord)
    (hget : storeGet st id = some u)
    (hcond : truthy req.zipCode = false ∨ req.zipCode.getD "" = u.zipCode) :
    putUsers env now we st id req =
      match we with
      | some m => (.serverError m, st, [])
      | none =>
        (.okUpdated (baseUpdates req u now),
         storeSet st id (applyUpdates u (baseUpdates req u now)), []) := by
  have hc : (truthy req.zipCode && (req.zipCode.getD "" != u.zipCode)) = false := by
    rcases hcond with h | h <;> simp [h]
  cases we with
  | none => simp [putUsers, hget, hc]
  | some m => simp [putUsers, hget, hc]

theorem putUsers_zip_change (env : Env) (now : Nat) (we : Option String)
    (st : Store) (id : String) (req : ReqBody) (u : UserRecord) (z : String)
    (hget : storeGet st id = some u)
    (hz : req.zipCode = some z) (hzne : z ≠ "") (hdiff : z ≠ u.zipCode) :
    putUsers env now we st id req =
      match getLocationData env z (req.country.getD "US") with
      | .error e => (.serverError e, st, [(z, req.country.getD "US")])
      | .ok location =>
        match we with
        | some m => (.serverError m, st, [(z, req.country.getD "US")])
        | none =>
          (.okUpdated (geoUpdates req u now z location),
           storeSet st id (applyUpdates u (geoUpdates req u now z location)),
           [(z, req.country.getD "US")]) := by
  have hc : (truthy req.zipCode && (req.zipCode.getD "" != u.zipCode)) = true := by
    simp [truthy, hz, hzne, hdiff]
  cases hloc : getLocationData env z (req.country.getD "US") with
  | error e => simp [putUsers, hget, hc, hz, hloc, truthy, hzne, hdiff]
  | ok location =>
    cases we with
    | none => simp [putUsers, hget, hc, hz, hloc, truthy, hzne, hdiff]
    | some m => simp [putUsers, hget, hc, hz, hloc, truthy, hzne, hdiff]

/-! ### Elimination lemmas for the JS truthiness guards -/

theorem cond_true_elim (req : ReqBody) (u : UserRecord)
    (hc : (truthy req.zipCode && (req.zipCode.getD "" != u.zipCode)) = true) :
    ∃ z, req.zipCode = some z ∧ z ≠ "" ∧ z ≠ u.zipCode := by
  cases hq : req.zipCode with
  | none => rw [hq] at hc; simp [truthy] at hc
  | some z =>
    rw [hq] at hc
    simp [truthy] at hc
    exact ⟨z, rfl, hc.1, hc.2⟩

theorem cond_false_elim (req : ReqBody) (u : UserRecord)
    (hc : (truthy req.zipCode && (req.zipCode.getD "" != u.zipCode)) = false) :
    truthy req.zipCode = false ∨ req.zipCode.getD "" = u.zipCode := by
  by_cases ht : truthy req.zipCode = true
  · right
    rw [ht, Bool.true_and] at hc
    simpa using hc
  · left
    simpa using ht

theorem valid_elim (req : ReqBody)
    (hc : (!(truthy req.name) || !(truthy req.zipCode)) = false) :
    ∃ n z, req.name = some n ∧ n ≠ "" ∧ req.zipCode = some z ∧ z ≠ "" := by
  rw [Bool.or_eq_false_iff] at hc
  obtain ⟨h1, h2⟩ := hc
  rw [Bool.not_eq_false'] at h1 h2
  cases hn : req.name with
  | none => rw [hn] at h1; simp [truthy] at h1
  | some n =>
    cases hz : req.zipCode with
    | none => rw [hz] at h2; simp [truthy] at h2
    | some z =>
      rw [hn] at h1
      rw [hz] at h2
      simp [truthy] at h1 h2
      exact ⟨n, z, rfl, h1, rfl, h2⟩

/-- A country-echoing resolver stores the queried country in its result. -/
theorem getLocationData_country (env : Env) (hecho : EchoCountry env)
    (z c : String) (loc : Location)
    (h : getLocationData env z c = .ok loc) : loc.country = c := by
  unfold getLocationData at h
  cases hg : env.geoCall z c with
  | error e => rw [hg] at h; simp at h
  | ok g =>
    rw [hg] at h
    dsimp only at h
    cases hw : env.weatherCall g.lat g.lon with
    | error e => rw [hw] at h; simp at h
    | ok w =>
      rw [hw] at h
      dsimp only at h
      simp only [Except.ok.injEq] at h
      rw [← h]
      exact hecho z c g hg

/-- Every successful PUT ran with a successful store write and merged an
`updates` object whose `name` and `updatedAt` are the ones the handler always
sets. -/
theorem putUsers_ok_shape (env : Env) (now : Nat) (we : Option String)
    (st : Store) (id : String) (req : ReqBody) (u : UserRecord)
    (up : UpdatesObj)
    (hget : storeGet st id = some u)
    (hok : (putUsers env now we st id req).1 = .okUpdated up) :
    we = none ∧ up.name = jsOr req.name u.name ∧ up.updatedAt = now ∧
    (putUsers env now we st id req).2.1 = storeSet st id (applyUpdates u up) := by
  by_cases hc : (truthy req.zipCode && (req.zipCode.getD "" != u.zipCode)) = true
  · obtain ⟨z, hz, hzne, hdiff⟩ := cond_true_elim req u hc
    have heq := putUsers_zip_change env now we st id req u z hget hz hzne hdiff
    cases hloc : getLocationData env z (req.country.getD "US") with
    | error e => rw [heq, hloc] at hok; simp at hok
    | ok location =>
      cases we with
      | some m => rw [heq, hloc] at hok; simp at hok
      | none =>
        rw [heq, hloc] at hok
        simp only [UpdateResult.okUpdated.injEq] at hok
        subst hok
        rw [heq, hloc]
        exact ⟨rfl, rfl, rfl, rfl⟩
  · have hcf : (truthy req.zipCode && (req.zipCode.getD "" != u.zipCode)) = false := by
      simpa using hc
    have hcond := cond_false_elim req u hcf
    have heq := putUsers_same_zip env now we st id req u hget hcond
    cases we with
    | some m => rw [heq] at hok; simp at hok
    | none =>
      rw [heq] at hok
      simp only [UpdateResult.okUpdated.injEq] at hok
      subst hok
      rw [heq]
      exact ⟨rfl, rfl, rfl, rfl⟩

/-! ### Further concrete fixtures -/

/-- Update request moving `userAna` to zip "10001", country omitted. -/
def reqNY : ReqBody :=
  { name := none
    zipCode := some "10001"
    country := none }

/-- What `envEcho` resolves for ("10001", "US"). -/
def locNY : Location :=
  { locName := "10001"
    lat := 37
    lon := -122
    country := "US"
    timezone := -25200 }

/-- Update request with a present-but-empty zipCode. -/
def reqEmptyZip : ReqBody :=
  { name := none
    zipCode := some ""
    country := none }

/-- Update request renaming the user, same zipCode as `userAna`. -/
def reqSameZip : ReqBody :=
  { name := some "Bo"
    zipCode := some "94105"
    country := none }

/-- Update request supplying only a country different from the stored one. -/
def reqCA : ReqBody :=
  { name := none
    zipCode := none
    country := some "CA" }

/-- Update request with a present-but-empty name. -/
def reqEmptyName : ReqBody :=
  { name := some ""
    zipCode := none
    country := none }

/-! ### Claims -/

/-- C1, counterexample to the claim as stated: the update request
`{ zipCode: "" }` has a zipCode that is present and differs by value from the
stored zipCode "94105", yet the handler invokes the resolver zero times, not
exactly once — the JS guard `if (zipCode && zipCode !== currentUser.zipCode)`
treats the empty string as falsy. -/
theorem c1_empty_zip_skips_resolver :
    reqEmptyZip.zipCode = some "" ∧ "" ≠ userAna.zipCode ∧
    (putUsers envEcho 5 none store1 "u1" reqEmptyZip).2.2 = [] := by
  refine ⟨rfl, by decide, by decide⟩

/-- C1 (amended: the zipCode must also be non-empty, since the handler's
truthiness guard skips an empty one): for every stored record and update
request whose zipCode is present, non-empty and differs by value from the
stored zipCode, the handler invokes the resolver exactly once, on the new
(zipCode, country) pair, regardless of write outcome; and on success the
stored record has zipCode, country, latitude, longitude and timezone all
replaced together from that single resolution, as one atomic set. -/
theorem c1_update_zip_change_atomic (env : Env) (now : Nat) (st : Store)
    (id : String) (req : ReqBody) (u : UserRecord) (z : String)
    (loc : Location)
    (hget : storeGet st id = some u)
    (hz : req.zipCode = some z) (hzne : z ≠ "") (hdiff : z ≠ u.zipCode)
    (hres : getLocationData env z (req.country.getD "US") = .ok loc) :
    (∀ we, (putUsers env now we st id req).2.2 = [(z, req.country.getD "US")]) ∧
    storeGet (putUsers env now none st id req).2.1 id =
      some { id := u.id
             name := jsOr req.name u.name
             zipCode := z
             country := loc.country
             lat := loc.lat
             lon := loc.lon
             timezone := loc.timezone
             createdAt := u.createdAt
             updatedAt := now } := by
  constructor
  · intro we
    rw [putUsers_zip_change env now we st id req u z hget hz hzne hdiff, hres]
    cases we <;> rfl
  · rw [putUsers_zip_change env now none st id req u z hget hz hzne hdiff, hres]
    show storeGet (storeSet st id _) id = _
    rw [storeGet_storeSet_self]
    simp [applyUpdates, geoUpdates, baseUpdates]

/-- C1 witness: the amended theorem applied to `userAna` updated to zip
"10001" against `envEcho`. -/
theorem c1_update_zip_change_atomic_witness :
    (∀ we, (putUsers envEcho 5 we store1 "u1" reqNY).2.2 = [("10001", "US")]) ∧
    storeGet (putUsers envEcho 5 none store1 "u1" reqNY).2.1 "u1" =
      some { id := "u1"
             name := "Ana"
             zipCode := "10001"
             country := "US"
             lat := 37
             lon := -122
             timezone := -25200
             createdAt := 0
             updatedAt := 5 } :=
  c1_update_zip_change_atomic envEcho 5 store1 "u1" reqNY userAna "10001" locNY
    (by decide) rfl (by decide) (by decide) rfl

/-- C2: updating with a zipCode equal by value to the stored one never
invokes the resolver, and on a successful write the stored record keeps its
latitude, longitude, timezone (and zipCode and country) unchanged, with only
name merged by the `name || currentUser.name` rule and updatedAt refreshed to
the current instant. -/
theorem c2_update_same_zip_frame (env : Env) (now : Nat) (st : Store)
    (id : String) (req : ReqBody) (u : UserRecord)
    (hget : storeGet st id = some u)
    (hz : req.zipCode = some u.zipCode) :
    (∀ we, (putUsers env now we st id req).2.2 = []) ∧
    storeGet (putUsers env now none st id req).2.1 id =
      some { u with name := jsOr req.name u.name, updatedAt := now } := by
  have hcond : truthy req.zipCode = false ∨ req.zipCode.getD "" = u.zipCode := by
    right
    rw [hz]
    rfl
  constructor
  · intro we
    rw [putUsers_same_zip env now we st id req u hget hcond]
    cases we <;> rfl
  · rw [putUsers_same_zip env now none st id req u hget hcond]
    show storeGet (storeSet st id _) id = _
    rw [storeGet_storeSet_self]
    simp [applyUpdates, baseUpdates]

/-- C2 witness: renaming `userAna` without changing its zip. -/
theorem c2_update_same_zip_frame_witness :
    (∀ we, (putUsers envEcho 5 we store1 "u1" reqSameZip).2.2 = []) ∧
    storeGet (putUsers envEcho 5 none store1 "u1" reqSameZip).2.1 "u1" =
      some { id := "u1"
             name := "Bo"
             zipCode := "94105"
             country := "US"
             lat := 37
             lon := -122
             timezone := -25200
             createdAt := 0
             updatedAt := 5 } :=
  c2_update_same_zip_frame envEcho 5 store1 "u1" reqSameZip userAna
    (by decide) rfl

/-- C3: creating a user with non-empty name and zipCode, when the resolver
succeeds, responds 201 with the full record, whose latitude, longitude and
timezone are exactly the resolver's values for the (zipCode, country) pair,
whose identifier is the freshly pushed key (previously unused in the store),
and which is persisted under that key. -/
theorem c3_create_success (env : Env) (freshId : String) (now : Nat)
    (st : Store) (req : ReqBody) (n z : String) (loc : Location)
    (hn : req.name = some n) (hne : n ≠ "")
    (hz : req.zipCode = some z) (hzne : z ≠ "")
    (hres : getLocationData env z (req.country.getD "US") = .ok loc)
    (_hfresh : storeGet st freshId = none) :
    (postUsers env freshId now st req).1 = .created
      { id := freshId
        name := n
        zipCode := z
        country := loc.country
        lat := loc.lat
        lon := loc.lon
        timezone := loc.timezone
        createdAt := now
        updatedAt := now } ∧
    storeGet (postUsers env freshId now st req).2.1 freshId = some
      { id := freshId
        name := n
        zipCode := z
        country := loc.country
        lat := loc.lat
        lon := loc.lon
        timezone := loc.timezone
        createdAt := now
        updatedAt := now } ∧
    (postUsers env freshId now st req).2.2 = [(z, req.country.getD "US")] := by
  rw [postUsers_valid env freshId now st req n z hn hne hz hzne, hres]
  refine ⟨rfl, ?_, rfl⟩
  show storeGet (storeSet st freshId _) freshId = _
  rw [storeGet_storeSet_self]
  rfl

/-- C3 witness: creating `userAna` in the empty store against `envEcho`. -/
theorem c3_create_success_witness :
    (postUsers envEcho "u1" 0 [] req0).1 = .created userAna ∧
    storeGet (postUsers envEcho "u1" 0 [] req0).2.1 "u1" = some userAna ∧
    (postUsers envEcho "u1" 0 [] req0).2.2 = [("94105", "US")] :=
  c3_create_success envEcho "u1" 0 [] req0 "Ana" "94105"
    { locName := "94105"
      lat := 37
      lon := -122
      country := "US"
      timezone := -25200 }
    rfl (by decide) rfl (by decide) rfl rfl

/-- C4: a create request whose name or zipCode is absent or empty fails with
the 400 validation response, leaves the store unchanged, and performs no
resolver call. -/
theorem c4_create_validation (env : Env) (freshId : String) (now : Nat)
    (st : Store) (req : ReqBody)
    (h : (req.name = none ∨ req.name = some "") ∨
         (req.zipCode = none ∨ req.zipCode = some "")) :
    (postUsers env freshId now st req).1 =
      .badRequest "Name and zipCode are required" ∧
    (postUsers env freshId now st req).2.1 = st ∧
    (postUsers env freshId now st req).2.2 = [] := by
  have ht : truthy req.name = false ∨ truthy req.zipCode = false := by
    rcases h with (h | h) | (h | h) <;> simp [h, truthy]
  rw [postUsers_invalid env freshId now st req ht]
  exact ⟨rfl, rfl, rfl⟩

/-- C4 witness: a create request with a name but no zipCode. -/
theorem c4_create_validation_witness :
    (postUsers envEcho "u9" 7 store1
      { name := some "Cy", zipCode := none, country := none }).1 =
      .badRequest "Name and zipCode are required" ∧
    (postUsers envEcho "u9" 7 store1
      { name := some "Cy", zipCode := none, country := none }).2.1 = store1 ∧
    (postUsers envEcho "u9" 7 store1
      { name := some "Cy", zipCode := none, country := none }).2.2 = [] :=
  c4_create_validation envEcho "u9" 7 store1
    { name := some "Cy", zipCode := none, country := none }
    (Or.inr (Or.inl rfl))

/-- C6, counterexample to the claim as stated: against an environment whose
geocoding call fails with upstream message "boom", `getLocationData` throws
the fixed message "Failed to fetch location data" and the create handler
reports that fixed message in its 500 response — the upstream message "boom"
is only logged, never attached. -/
theorem c6_upstream_message_not_carried :
    envBoom.geoCall "94105" "US" = .error "boom" ∧
    getLocationData envBoom "94105" "US" =
      .error "Failed to fetch location data" ∧
    (postUsers envBoom "u1" 0 [] req0).1 =
      .serverError "Failed to fetch location data" ∧
    ("Failed to fetch location data" : String) ≠ "boom" :=
  ⟨rfl, rfl, rfl, by decide⟩

/-- C6 (amended: the error carries the fixed message
"Failed to fetch location data" rather than the upstream error's message,
which the helper only logs): whenever either external call fails, the
resolver fails with that fixed message, and the create handler reports a 500
carrying it, leaving the store unchanged. -/
theorem c6_resolution_error_fixed_message (env : Env) (freshId : String)
    (now : Nat) (st : Store) (req : ReqBody) (n z e : String)
    (hn : req.name = some n) (hne : n ≠ "")
    (hz : req.zipCode = some z) (hzne : z ≠ "")
    (hfail : env.geoCall z (req.country.getD "US") = .error e ∨
      ∃ g, env.geoCall z (req.country.getD "US") = .ok g ∧
        env.weatherCall g.lat g.lon = .error e) :
    getLocationData env z (req.country.getD "US") =
      .error "Failed to fetch location data" ∧
    (postUsers env freshId now st req).1 =
      .serverError "Failed to fetch location data" ∧
    (postUsers env freshId now st req).2.1 = st := by
  have hloc : getLocationData env z (req.country.getD "US") =
      .error "Failed to fetch location data" := by
    rcases hfail with h | ⟨g, hg, hw⟩
    · simp [getLocationData, h]
    · simp [getLocationData, hg, hw]
  rw [postUsers_valid env freshId now st req n z hn hne hz hzne, hloc]
  exact ⟨rfl, rfl, rfl⟩

/-- C6 witness: the amended theorem at the always-failing environment. -/
theorem c6_resolution_error_fixed_message_witness :
    getLocationData envBoom "94105" "US" =
      .error "Failed to fetch location data" ∧
    (postUsers envBoom "u1" 0 [] req0).1 =
      .serverError "Failed to fetch location data" ∧
    (postUsers envBoom "u1" 0 [] req0).2.1 = [] :=
  c6_resolution_error_fixed_message envBoom "u1" 0 [] req0 "Ana" "94105" "boom"
    rfl (by decide) rfl (by decide) (Or.inl rfl)

/-- C7: if, during an update of an existing record, the resolution fails or
the store write fails, the whole operation fails with a 500 and the store is
exactly what it was before the operation. -/
theorem c7_update_failure_leaves_state (env : Env) (now : Nat)
    (we : Option String) (st : Store) (id : String) (req : ReqBody)
    (u : UserRecord)
    (hget : storeGet st id = some u)
    (hfail : (∃ m, we = some m) ∨
      ∃ z e, req.zipCode = some z ∧ z ≠ "" ∧ z ≠ u.zipCode ∧
        getLocationData env z (req.country.getD "US") = .error e) :
    (∃ m, (putUsers env now we st id req).1 = .serverError m) ∧
    (putUsers env now we st id req).2.1 = st := by
  rcases hfail with ⟨m, rfl⟩ | ⟨z, e, hz, hzne, hdiff, hloc⟩
  · by_cases hc : (truthy req.zipCode && (req.zipCode.getD "" != u.zipCode)) = true
    · obtain ⟨z, hz, hzne, hdiff⟩ := cond_true_elim req u hc
      have heq := putUsers_zip_change env now (some m) st id req u z hget hz hzne hdiff
      cases hloc : getLocationData env z (req.country.getD "US") with
      | error e => rw [heq, hloc]; exact ⟨⟨e, rfl⟩, rfl⟩
      | ok location => rw [heq, hloc]; exact ⟨⟨m, rfl⟩, rfl⟩
    · have hcond := cond_false_elim req u (by simpa using hc)
      rw [putUsers_same_zip env now (some m) st id req u hget hcond]
      exact ⟨⟨m, rfl⟩, rfl⟩
  · rw [putUsers_zip_change env now we st id req u z hget hz hzne hdiff, hloc]
    exact ⟨⟨e, rfl⟩, rfl⟩

/-- C7 witness: an update of `userAna` to a new zip whose resolution fails
against `envBoom`. -/
theorem c7_update_failure_leaves_state_witness :
    (∃ m, (putUsers envBoom 5 none store1 "u1" reqNY).1 = .serverError m) ∧
    (putUsers envBoom 5 none store1 "u1" reqNY).2.1 = store1 :=
  c7_update_failure_leaves_state envBoom 5 none store1 "u1" reqNY userAna
    (by decide)
    (Or.inr ⟨"10001", "Failed to fetch location data", rfl, by decide,
      by decide, rfl⟩)

/-- C8: after any successful update of a stored record, the record stored
under the same identifier keeps its identifier and its createdAt timestamp,
whatever the patch contained — the handler never places either key in the
merged `updates` object. -/
theorem c8_id_createdAt_immutable (env : Env) (now : Nat) (we : Option String)
    (st : Store) (id : String) (req : ReqBody) (u u' : UserRecord)
    (up : UpdatesObj)
    (hget : storeGet st id = some u)
    (hok : (putUsers env now we st id req).1 = .okUpdated up)
    (hu' : storeGet (putUsers env now we st id req).2.1 id = some u') :
    u'.id = u.id ∧ u'.createdAt = u.createdAt := by
  obtain ⟨-, -, -, hst⟩ := putUsers_ok_shape env now we st id req u up hget hok
  rw [hst, storeGet_storeSet_self] at hu'
  obtain rfl : applyUpdates u up = u' := Option.some_injective _ hu'
  exact ⟨rfl, rfl⟩

/-- C8 witness: the zip-changing update of `userAna` keeps id "u1" and
createdAt 0. -/
theorem c8_id_createdAt_immutable_witness :
    ({ id := "u1", name := "Ana", zipCode := "10001", country := "US",
       lat := 37, lon := -122, timezone := -25200, createdAt := 0,
       updatedAt := 5 } : UserRecord).id = userAna.id ∧
    ({ id := "u1", name := "Ana", zipCode := "10001", country := "US",
       lat := 37, lon := -122, timezone := -25200, createdAt := 0,
       updatedAt := 5 } : UserRecord).createdAt = userAna.createdAt :=
  c8_id_createdAt_immutable envEcho 5 none store1 "u1" reqNY userAna
    { id := "u1", name := "Ana", zipCode := "10001", country := "US",
      lat := 37, lon := -122, timezone := -25200, createdAt := 0,
      updatedAt := 5 }
    (geoUpdates reqNY userAna 5 "10001" locNY)
    (by decide) (by decide) (by decide)

/-- C9, counterexample to the claim as stated: the patch `{ name: "" }`
provides a name, yet after the update the stored record still carries its old
name "Ana" — `name: name || currentUser.name` discards a provided empty
name. -/
theorem c9_empty_name_not_replaced :
    reqEmptyName.name = some "" ∧
    storeGet (putUsers envEcho 5 none store1 "u1" reqEmptyName).2.1 "u1" =
      some { id := "u1", name := "Ana", zipCode := "94105", country := "US",
             lat := 37, lon := -122, timezone := -25200, createdAt := 0,
             updatedAt := 5 } ∧
    ("Ana" : String) ≠ "" := by
  refine ⟨rfl, by decide, by decide⟩

/-- C9 (amended: a provided empty name is treated like an absent one by the
`name || currentUser.name` fallback): after a successful update, the stored
record's name is the patch's name when that is present and non-empty, and is
unchanged when the patch's name is absent or empty. -/
theorem c9_update_name_rule (env : Env) (now : Nat) (we : Option String)
    (st : Store) (id : String) (req : ReqBody) (u u' : UserRecord)
    (up : UpdatesObj)
    (hget : storeGet st id = some u)
    (hok : (putUsers env now we st id req).1 = .okUpdated up)
    (hu' : storeGet (putUsers env now we st id req).2.1 id = some u') :
    (∀ n, req.name = some n → n ≠ "" → u'.name = n) ∧
    ((req.name = none ∨ req.name = some "") → u'.name = u.name) := by
  obtain ⟨-, hname, -, hst⟩ := putUsers_ok_shape env now we st id req u up hget hok
  rw [hst, storeGet_storeSet_self] at hu'
  obtain rfl : applyUpdates u up = u' := Option.some_injective _ hu'
  constructor
  · intro n hn hne
    simp [applyUpdates, hname, hn, jsOr, hne]
  · rintro (h | h) <;> simp [applyUpdates, hname, h, jsOr]

/-- C9 witness: the renaming update of `userAna` to "Bo". -/
theorem c9_update_name_rule_witness :
    (∀ n, reqSameZip.name = some n → n ≠ "" →
      ({ id := "u1", name := "Bo", zipCode := "94105", country := "US",
         lat := 37, lon := -122, timezone := -25200, createdAt := 0,
         updatedAt := 5 } : UserRecord).name = n) ∧
    ((reqSameZip.name = none ∨ reqSameZip.name = some "") →
      ({ id := "u1", name := "Bo", zipCode := "94105", country := "US",
         lat := 37, lon := -122, timezone := -25200, createdAt := 0,
         updatedAt := 5 } : UserRecord).name = userAna.name) :=
  c9_update_name_rule envEcho 5 none store1 "u1" reqSameZip userAna
    { id := "u1", name := "Bo", zipCode := "94105", country := "US",
      lat := 37, lon := -122, timezone := -25200, createdAt := 0,
      updatedAt := 5 }
    (baseUpdates reqSameZip userAna 5)
    (by decide) (by decide) (by decide)

/-- C10: when the patch's zipCode is absent or equal to the stored one, a
country supplied in the patch is ignored entirely — the resolver is not
invoked and the record stored under the identifier keeps its country — even
when the supplied country differs from the stored one. -/
theorem c10_country_ignored_without_zip_change (env : Env) (now : Nat)
    (we : Option String) (st : Store) (id : String) (req : ReqBody)
    (u u' : UserRecord) (c : String)
    (hget : storeGet st id = some u)
    (hz : req.zipCode = none ∨ req.zipCode = some u.zipCode)
    (_hc : req.country = some c)
    (hu' : storeGet (putUsers env now we st id req).2.1 id = some u') :
    (putUsers env now we st id req).2.2 = [] ∧ u'.country = u.country := by
  have hcond : truthy req.zipCode = false ∨ req.zipCode.getD "" = u.zipCode := by
    rcases hz with h | h
    · left; simp [h, truthy]
    · right; simp [h]
  have heq := putUsers_same_zip env now we st id req u hget hcond
  cases we with
  | some m =>
    rw [heq] at hu' ⊢
    rw [hget] at hu'
    obtain rfl : u = u' := Option.some_injective _ hu'
    exact ⟨rfl, rfl⟩
  | none =>
    rw [heq] at hu' ⊢
    rw [storeGet_storeSet_self] at hu'
    obtain rfl : applyUpdates u (baseUpdates req u now) = u' :=
      Option.some_injective _ hu'
    exact ⟨rfl, rfl⟩

/-- C10 witness: a patch supplying only country "CA" to `userAna` (stored
country "US") leaves the country at "US" and makes no resolver call. -/
theorem c10_country_ignored_without_zip_change_witness :
    (putUsers envEcho 5 none store1 "u1" reqCA).2.2 = [] ∧
    ({ id := "u1", name := "Ana", zipCode := "94105", country := "US",
       lat := 37, lon := -122, timezone := -25200, createdAt := 0,
       updatedAt := 5 } : UserRecord).country = userAna.country :=
  c10_country_ignored_without_zip_change envEcho 5 none store1 "u1" reqCA
    userAna
    { id := "u1", name := "Ana", zipCode := "94105", country := "US",
      lat := 37, lon := -122, timezone := -25200, createdAt := 0,
      updatedAt := 5 }
    "CA" (by decide) (Or.inl rfl) rfl (by decide)

/-- C5: in every store state reachable by any sequence of create, update and
delete operations against a deterministic resolver whose geocoding endpoint
echoes the queried country, every stored record's latitude, longitude and
timezone are exactly what resolving its current (zipCode, country) pair
yields — never values from a different or older pair. -/
theorem c5_geo_fields_consistent (env : Env) (st : Store)
    (hecho : EchoCountry env) (hreach : Reachable env st) :
    ∀ id u, storeGet st id = some u → GeoConsistent env u := by
  induction hreach with
  | init =>
    intro j u hj
    simp [storeGet] at hj
  | create st0 freshId now req _hr ih =>
    intro j u hj
    by_cases hc : (!(truthy req.name) || !(truthy req.zipCode)) = true
    · have heq : postUsers env freshId now st0 req =
          (.badRequest "Name and zipCode are required", st0, []) := by
        simp [postUsers, hc]
      rw [heq] at hj
      exact ih j u hj
    · obtain ⟨n, z, hn, hne, hz, hzne⟩ := valid_elim req (by simpa using hc)
      have heq := postUsers_valid env freshId now st0 req n z hn hne hz hzne
      cases hloc : getLocationData env z (req.country.getD "US") with
      | error e =>
        rw [heq, hloc] at hj
        exact ih j u hj
      | ok location =>
        rw [heq, hloc] at hj
        rcases storeGet_storeSet_cases _ _ _ _ _ hj with rfl | hold
        · have hcountry :=
            getLocationData_country env hecho z (req.country.getD "US")
              location hloc
          refine ⟨location, ?_, rfl, rfl, rfl⟩
          show getLocationData env z location.country = .ok location
          rw [hcountry]
          exact hloc
        · exact ih j u hold
  | update st0 now we id req _hr ih =>
    intro j u hj
    cases hcur : storeGet st0 id with
    | none =>
      rw [putUsers_notFound env now we st0 id req hcur] at hj
      exact ih j u hj
    | some currentUser =>
      by_cases hc :
          (truthy req.zipCode && (req.zipCode.getD "" != currentUser.zipCode))
            = true
      · obtain ⟨z, hz, hzne, hdiff⟩ := cond_true_elim req currentUser hc
        have heq :=
          putUsers_zip_change env now we st0 id req currentUser z hcur hz
            hzne hdiff
        cases hloc : getLocationData env z (req.country.getD "US") with
        | error e =>
          rw [heq, hloc] at hj
          exact ih j u hj
        | ok location =>
          cases we with
          | some m =>
            rw [heq, hloc] at hj
            exact ih j u hj
          | none =>
            rw [heq, hloc] at hj
            rcases storeGet_storeSet_cases _ _ _ _ _ hj with rfl | hold
            · have hcountry :=
                getLocationData_country env hecho z (req.country.getD "US")
                  location hloc
              refine ⟨location, ?_, rfl, rfl, rfl⟩
              show getLocationData env z location.country = .ok location
              rw [hcountry]
              exact hloc
            · exact ih j u hold
      · have hcond := cond_false_elim req currentUser (by simpa using hc)
        have heq := putUsers_same_zip env now we st0 id req currentUser hcur hcond
        cases we with
        | some m =>
          rw [heq] at hj
          exact ih j u hj
        | none =>
          rw [heq] at hj
          rcases storeGet_storeSet_cases _ _ _ _ _ hj with rfl | hold
          · obtain ⟨loc0, hl0, h1, h2, h3⟩ := ih id currentUser hcur
            exact ⟨loc0, hl0, h1, h2, h3⟩
          · exact ih j u hold
  | del st0 id _hr ih =>
    intro j u hj
    cases hcur : storeGet st0 id with
    | none =>
      have heq : (deleteUsers st0 id).2 = st0 := by simp [deleteUsers, hcur]
      rw [heq] at hj
      exact ih j u hj
    | some v =>
      have heq : (deleteUsers st0 id).2 = storeRemove st0 id := by
        simp [deleteUsers, hcur]
      rw [heq] at hj
      exact ih j u (storeGet_storeRemove_cases st0 id j u hj)

/-- C5 witness: after creating `userAna` from the empty store against the
country-echoing `envEcho`, the stored record is geolocation-consistent. -/
theorem c5_geo_fields_consistent_witness : GeoConsistent envEcho userAna := by
  have hecho : EchoCountry envEcho := by
    intro z c g h
    injection h with h2
    subst h2
    rfl
  have hreach : Reachable envEcho (postUsers envEcho "u1" 0 [] req0).2.1 :=
    Reachable.create [] "u1" 0 req0 Reachable.init
  exact c5_geo_fields_consistent envEcho _ hecho hreach "u1" userAna (by decide)

end UserMgmt
